import Mathlib

/-!
Verification of the Sudoku puzzle generator and game-state engine of the
repository (source: `src/components/sudoku-game.tsx`).

The TypeScript source is shallowly embedded: the raw digit grid
(`SudokuGrid = (number | null)[][]`) becomes a function from positions to
optional digits, the annotated play grid becomes a function from positions to
`SudokuCell` records, in-place mutation becomes functional update, and the
ambient source of randomness (`Math.random()`) becomes an explicit stream of
natural numbers threaded through the generator: a draw of
`Math.floor(Math.random() * n)` at stream index `k` is modelled as `rng k % n`,
which covers exactly the values `0 .. n-1` the source draw can produce.
-/

set_option maxHeartbeats 2000000
set_option maxRecDepth 10000

namespace Sudoku

/-- A cell position `(row, col)`, each coordinate in `[0, 8]`. -/
abbrev Pos := Fin 9 × Fin 9

/-- The source's `SudokuGrid` (`(number | null)[][]`): a 9×9 grid of optional
digits, modelled as a function from positions to `Option Nat`. -/
abbrev SudokuGrid := Pos → Option Nat

/-- The stream of `Math.random()` draws, indexed by how many draws happened so far. -/
abbrev Rng := Nat → Nat

/-- Functional update of one cell (the source mutates `grid[row][col] = v`). -/
def setCell (g : SudokuGrid) (p : Pos) (v : Option Nat) : SudokuGrid :=
  fun q => if q = p then v else g q

/-- The source's `isValidPlacement(grid, row, col, num)`: scans the whole row,
the whole column, and the containing 3×3 box (the box loop runs over
`r ∈ [3⌊row/3⌋, 3⌊row/3⌋+3)`, i.e. exactly the rows `r` with `⌊r/3⌋ = ⌊row/3⌋`,
and likewise for columns), and reports `false` iff some scanned cell already
holds `num`. The scanned cells include `(row, col)` itself. -/
def isValidPlacement (grid : SudokuGrid) (row col : Fin 9) (num : Nat) : Bool :=
  ((List.finRange 9).all fun c => grid (row, c) != some num) &&
  ((List.finRange 9).all fun r => grid (r, col) != some num) &&
  ((List.finRange 9).all fun r => (List.finRange 9).all fun c =>
    if r.val / 3 = row.val / 3 ∧ c.val / 3 = col.val / 3 then grid (r, c) != some num
    else true)

/-- One step of the source's destructuring swap
`[array[i], array[j]] = [array[j], array[i]]` on an immutable list. -/
def swapAt (l : List α) (i j : Nat) : List α :=
  match l.get? i, l.get? j with
  | some a, some b => (l.set i b).set j a
  | _, _ => l

/-- The Fisher–Yates loop of the source's `shuffleArray`: the loop index counts
down from `length - 1` to `1`; at index `i` the source draws
`j = Math.floor(Math.random() * (i + 1))`, modelled as `rng k % (i + 1)`, and
swaps positions `i` and `j`. Returns the shuffled list together with the
advanced random-stream index. -/
def shuffleStep (rng : Rng) : Nat → List α → Nat → List α × Nat
  | 0, l, k => (l, k)
  | i + 1, l, k => shuffleStep rng i (swapAt l (i + 1) (rng k % (i + 2))) (k + 1)

/-- The source's `shuffleArray(array)`. -/
def shuffleArray (rng : Rng) (l : List α) (k : Nat) : List α × Nat :=
  shuffleStep rng (l.length - 1) l k

/-- The row-major list of all 81 positions — the scan order of the source's
nested `for (row) for (col)` loops, and the `cells` list built by `removeCells`. -/
def allPositions : List Pos :=
  (List.finRange 9).flatMap fun r => (List.finRange 9).map fun c => (r, c)

/-- The row-major scan of the source's `fillGrid` for the first cell with
`grid[row][col] === null`. -/
def findFirstEmpty (g : SudokuGrid) : Option Pos :=
  allPositions.find? fun p => g p == none

/-- The literal `[1, 2, 3, 4, 5, 6, 7, 8, 9]` that `fillGrid` shuffles. -/
def oneToNine : List Nat := [1, 2, 3, 4, 5, 6, 7, 8, 9]

mutual

/-- The source's `fillGrid(grid)`: find the first empty cell in row-major order;
if there is none the grid is completely filled (success, return the grid).
Otherwise shuffle the digits 1–9 and try them in order via `tryNumbers`.
The source recurses without an explicit bound; `fuel` is the defensive
recursion-depth bound the spec instructs implementers to add. The top-level
call passes `82`, which strictly exceeds the maximal recursion depth (one
level per empty cell, at most 81, plus the final success level), so the
bound is never reached and the model agrees with the unbounded source. -/
def fillGrid (fuel : Nat) (g : SudokuGrid) (rng : Rng) (k : Nat) :
    Option SudokuGrid × Nat :=
  match fuel with
  | 0 => (none, k)
  | fuel' + 1 =>
    match findFirstEmpty g with
    | none => (some g, k)
    | some p =>
      let sk := shuffleArray rng oneToNine k
      tryNumbers fuel' g p sk.1 rng sk.2
termination_by (fuel, 0)

/-- The `for (const num of numbers)` loop inside the source's `fillGrid`: try
each candidate digit in order; on a legal placement set the cell and recurse;
if the recursive call fails the source restores `grid[row][col] = null` (the
functional model simply keeps using the unchanged `g`) and tries the next
candidate; an exhausted candidate list reports failure to the caller. -/
def tryNumbers (fuel : Nat) (g : SudokuGrid) (p : Pos) (nums : List Nat)
    (rng : Rng) (k : Nat) : Option SudokuGrid × Nat :=
  match nums with
  | [] => (none, k)
  | n :: rest =>
    if isValidPlacement g p.1 p.2 n then
      match fillGrid fuel (setCell g p (some n)) rng k with
      | (some g2, k2) => (some g2, k2)
      | (none, k2) => tryNumbers fuel g p rest rng k2
    else tryNumbers fuel g p rest rng k
termination_by (fuel, nums.length + 1)

end

/-- The blanking loop of the source's `removeCells`: set each listed position
to `null`, in order. -/
def blankCells (g : SudokuGrid) (ps : List Pos) : SudokuGrid :=
  ps.foldl (fun g' p => setCell g' p none) g

/-- The source's `removeCells(grid, count)`: build the row-major list of all 81
positions, shuffle it, and blank the first `count` positions (the loop guard
`i < count && i < cells.length` is `List.take count`). -/
def removeCells (g : SudokuGrid) (count : Nat) (rng : Rng) (k : Nat) :
    SudokuGrid × Nat :=
  let sk := shuffleArray rng allPositions k
  (blankCells g (sk.1.take count), sk.2)

/-- The source's `generateRandomSudoku()`: start from the empty grid, fill it by
randomized backtracking, then remove `45 + Math.floor(Math.random() * 6)` cells.
The source ignores `fillGrid`'s boolean result and keeps using the mutated
array; since backtracking restores every placement on failure, the array after
a failed call equals the array before it, which the model reflects by falling
back to the input (empty) grid when `fillGrid` reports failure. -/
def generateRandomSudoku (rng : Rng) (k : Nat) : SudokuGrid :=
  let emptyGrid : SudokuGrid := fun _ => none
  let fr := fillGrid 82 emptyGrid rng k
  let g1 := match fr.1 with | some g => g | none => emptyGrid
  let cellsToRemove := 45 + rng fr.2 % 6
  (removeCells g1 cellsToRemove rng (fr.2 + 1)).1

/-- The source's `SudokuCell` record. -/
structure SudokuCell where
  value : Option Nat
  isFixed : Bool
  isValid : Bool
deriving DecidableEq

/-- The annotated 9×9 grid (`SudokuCell[][]`) held in the component's `grid` state. -/
abbrev PlayGrid := Pos → SudokuCell

/-- The `selectedCell` state: an optional position. -/
abbrev Selection := Option Pos

/-- One entry of the source's `MoveHistory` array: a snapshot of the grid and
the selection at the time of a value mutation. -/
abbrev HistorySnapshot := PlayGrid × Selection

/-- The outcome classification of a value-entry action, following the three
feedback branches of `handleNumberInput`: `Invalid` for the error branch
(`playErrorSound` + life loss), `Placed` for the success branch
(`playPlaceSound`), `None` when a value was toggled off (no sound, no life
change) or the action was a no-op. -/
inductive Outcome where
  | None
  | Placed
  | Invalid
deriving DecidableEq

/-- The component state relevant to the game engine: the `grid`, `selectedCell`,
`moveHistory`, `lives` and `isComplete` pieces of `useState`, plus
`currentPuzzle` (the raw grid the session was built from, kept for reset). -/
structure GameSession where
  grid : PlayGrid
  selectedCell : Selection
  moveHistory : List HistorySnapshot
  lives : Int
  isComplete : Bool
  currentPuzzle : SudokuGrid

/-- The source's `isValidMove(grid, row, col, num)` on the annotated grid: like
`isValidPlacement` it scans the row, the column and the containing 3×3 box,
but it skips the cell `(row, col)` itself in each of the three scans
(`c !== col`, `r !== row`, `r !== row || c !== col`). -/
def isValidMove (grid : PlayGrid) (row col : Fin 9) (num : Nat) : Bool :=
  ((List.finRange 9).all fun c =>
    if c = col then true else (grid (row, c)).value != some num) &&
  ((List.finRange 9).all fun r =>
    if r = row then true else (grid (r, col)).value != some num) &&
  ((List.finRange 9).all fun r => (List.finRange 9).all fun c =>
    if r.val / 3 = row.val / 3 ∧ c.val / 3 = col.val / 3 ∧ ¬(r = row ∧ c = col) then
      (grid (r, c)).value != some num
    else true)

/-- The source's `updateValidation(newGrid)`: recompute every cell's `isValid`
as `cell.value === null || isValidMove(newGrid, row, col, cell.value)`;
`value` and `isFixed` are carried over unchanged. -/
def updateValidation (newGrid : PlayGrid) : PlayGrid :=
  fun p =>
    { newGrid p with
      isValid :=
        match (newGrid p).value with
        | none => true
        | some d => isValidMove newGrid p.1 p.2 d }

/-- The `validatedGrid.every(row => row.every(cell => cell.value !== null))`
check of `handleNumberInput`. -/
def gridFull (g : PlayGrid) : Bool :=
  (List.finRange 9).all fun r => (List.finRange 9).all fun c => (g (r, c)).value.isSome

/-- The `validatedGrid.every(row => row.every(cell => cell.isValid))` check of
`handleNumberInput`. -/
def gridAllValid (g : PlayGrid) : Bool :=
  (List.finRange 9).all fun r => (List.finRange 9).all fun c => (g (r, c)).isValid

/-- The `newGrid` map of `handleNumberInput` and `handleClear`: replace the
value of the cell at `pos`, keep every other cell. -/
def inputGrid (s : GameSession) (pos : Pos) (newValue : Option Nat) : PlayGrid :=
  fun q => if q = pos then { s.grid q with value := newValue } else s.grid q

/-- The source's `handleNumberInput(num)`. Returns the updated session together
with the `Outcome` describing which feedback branch ran. The guards, the toggle
(`newValue = currentValue === num ? null : num`), the single-cell grid update,
the revalidation, the life accounting (`Math.max(0, prev - 1)`), the history
push and the completion check follow the source line by line. -/
def handleNumberInput (s : GameSession) (num : Nat) : GameSession × Outcome :=
  match s.selectedCell with
  | none => (s, Outcome.None)
  | some pos =>
    if (s.grid pos).isFixed then (s, Outcome.None)
    else
      let newValue : Option Nat :=
        if (s.grid pos).value = some num then none else some num
      let validatedGrid := updateValidation (inputGrid s pos newValue)
      let livesOutcome : Int × Outcome :=
        if newValue ≠ none ∧ (validatedGrid pos).isValid = false then
          (max 0 (s.lives - 1), Outcome.Invalid)
        else if newValue ≠ none then (s.lives, Outcome.Placed)
        else (s.lives, Outcome.None)
      ({ s with
          grid := validatedGrid,
          moveHistory := s.moveHistory ++ [(validatedGrid, s.selectedCell)],
          lives := livesOutcome.1,
          isComplete :=
            if gridFull validatedGrid && gridAllValid validatedGrid then true
            else s.isComplete },
        livesOutcome.2)

/-- The source's `handleCellClick(row, col)`, restricted to the engine state
(the `highlightedNumber` / `highlightedPosition` updates are presentation
state): a click on a fixed cell returns early and leaves the selection
unchanged; otherwise the cell becomes the selection. No history push. -/
def handleCellClick (s : GameSession) (row col : Fin 9) : GameSession :=
  if (s.grid (row, col)).isFixed then s
  else { s with selectedCell := some (row, col) }

/-- The source's `handleClear()`: a no-op without a selection or on a fixed
cell; otherwise blank the selected cell, revalidate, push a history snapshot
and clear `isComplete`. -/
def handleClear (s : GameSession) : GameSession :=
  match s.selectedCell with
  | none => s
  | some pos =>
    if (s.grid pos).isFixed then s
    else
      let validatedGrid := updateValidation (inputGrid s pos none)
      { s with
        grid := validatedGrid,
        moveHistory := s.moveHistory ++ [(validatedGrid, s.selectedCell)],
        isComplete := false }

/-- The source's `handleUndo()`: a no-op when `moveHistory.length <= 1`;
otherwise drop the last snapshot and restore grid and selection from the new
top of the history, clearing `isComplete`. `lives` is untouched. -/
def handleUndo (s : GameSession) : GameSession :=
  if s.moveHistory.length ≤ 1 then s
  else
    let newHistory := s.moveHistory.dropLast
    match newHistory.getLast? with
    | none => s
    | some prev =>
      { s with
        moveHistory := newHistory,
        grid := prev.1,
        selectedCell := prev.2,
        isComplete := false }

/-- The annotated initial grid built from a raw puzzle (the `initialGrid`
mapping of the source's initialization effect, `handleReset` and
`handleNewPuzzle`): generated values become fixed cells, everything starts
valid. -/
def initialGridOf (puzzle : SudokuGrid) : PlayGrid :=
  fun p => { value := puzzle p, isFixed := (puzzle p).isSome, isValid := true }

/-- Session creation, as performed by the source's initialization effect: wrap
the freshly generated puzzle, seed the one-entry history, 3 lives, not
complete. -/
def createSession (puzzle : SudokuGrid) : GameSession :=
  { grid := initialGridOf puzzle,
    selectedCell := none,
    moveHistory := [(initialGridOf puzzle, none)],
    lives := 3,
    isComplete := false,
    currentPuzzle := puzzle }

/-- The source's `handleReset()`: rebuild everything from `currentPuzzle`
without regenerating. -/
def handleReset (s : GameSession) : GameSession :=
  { grid := initialGridOf s.currentPuzzle,
    selectedCell := none,
    moveHistory := [(initialGridOf s.currentPuzzle, none)],
    lives := 3,
    isComplete := false,
    currentPuzzle := s.currentPuzzle }

/-- The interactive operations of the engine: cell selection, digit entry,
clear and undo. -/
inductive GameOp where
  | select (row col : Fin 9)
  | input (num : Nat)
  | clear
  | undo

/-- Apply one interactive operation to a session. -/
def applyOp (s : GameSession) : GameOp → GameSession
  | GameOp.select r c => handleCellClick s r c
  | GameOp.input n => (handleNumberInput s n).1
  | GameOp.clear => handleClear s
  | GameOp.undo => handleUndo s

/-- Apply a sequence of interactive operations, first to last. -/
def applyOps (s : GameSession) (ops : List GameOp) : GameSession :=
  ops.foldl applyOp s

/-! ## Constraint notions

`sameUnit p q` says the two positions share a row, a column, or a 3×3 box —
exactly the cells the source's validation loops scan. -/

/-- Two positions share a row, a column, or a 3×3 box. -/
def sameUnit (p q : Pos) : Prop :=
  p.1 = q.1 ∨ p.2 = q.2 ∨ (p.1.val / 3 = q.1.val / 3 ∧ p.2.val / 3 = q.2.val / 3)

instance (p q : Pos) : Decidable (sameUnit p q) := by unfold sameUnit; infer_instance

/-- No digit occurs twice among the non-empty entries of any row, column, or
3×3 box: no two distinct positions of a common unit hold the same digit. -/
def gridConsistent (g : SudokuGrid) : Prop :=
  ∀ p q : Pos, p ≠ q → sameUnit p q → ∀ d : Nat, g p = some d → g q ≠ some d

/-- Number of empty cells of a raw grid. -/
def countEmpty (g : SudokuGrid) : Nat :=
  (Finset.univ.filter fun p : Pos => g p = none).card

/-- `g` agrees with the total assignment `sol` wherever `g` is filled. -/
def agreesWith (g : SudokuGrid) (sol : Pos → Nat) : Prop :=
  ∀ p d, g p = some d → d = sol p

/-- A total assignment of digits that satisfies all Sudoku constraints. -/
def totalConsistent (sol : Pos → Nat) : Prop :=
  (∀ p, 1 ≤ sol p ∧ sol p ≤ 9) ∧
    ∀ p q : Pos, p ≠ q → sameUnit p q → sol p ≠ sol q

/-- A concrete solved grid, witnessing that the empty grid has a completion. -/
def solGrid (p : Pos) : Nat :=
  (3 * (p.1.val % 3) + p.1.val / 3 + p.2.val) % 9 + 1

/-! ## Basic facts -/

lemma setCell_same (g : SudokuGrid) (p : Pos) (v : Option Nat) :
    setCell g p v p = v := by
  simp [setCell]

lemma setCell_of_ne (g : SudokuGrid) {p q : Pos} (v : Option Nat) (h : q ≠ p) :
    setCell g p v q = g q := by
  simp [setCell, h]

lemma mem_allPositions : ∀ p : Pos, p ∈ allPositions := by decide

lemma allPositions_nodup : allPositions.Nodup := by decide

lemma allPositions_length : allPositions.length = 81 := by decide

lemma solGrid_totalConsistent : totalConsistent solGrid := by
  constructor
  · intro p
    unfold solGrid
    omega
  · decide

lemma all_finRange_iff {p : Fin 9 → Bool} :
    ((List.finRange 9).all p = true) ↔ ∀ i, p i = true := by
  simp [List.all_eq_true, List.mem_finRange]

lemma ite_true_iff {P : Prop} [Decidable P] {b : Bool} :
    ((if P then b else true) = true) ↔ (P → b = true) := by
  by_cases h : P <;> simp [h]

lemma ite_true_left_iff {P : Prop} [Decidable P] {b : Bool} :
    ((if P then true else b) = true) ↔ (¬P → b = true) := by
  by_cases h : P <;> simp [h]

/-- Characterization of the generation-time legality check: `num` may be placed
at `(row, col)` iff no cell sharing a unit with `(row, col)` — the cell itself
included — holds `num`. -/
lemma isValidPlacement_iff (g : SudokuGrid) (row col : Fin 9) (num : Nat) :
    isValidPlacement g row col num = true ↔
      ∀ p : Pos, sameUnit p (row, col) → g p ≠ some num := by
  unfold isValidPlacement
  simp only [Bool.and_eq_true, all_finRange_iff, ite_true_iff, bne_iff_ne]
  constructor
  · rintro ⟨⟨hrow, hcol⟩, hbox⟩ ⟨pr, pc⟩ hsu
    rcases hsu with h1 | h2 | h3
    · cases h1; exact hrow pc
    · cases h2; exact hcol pr
    · exact hbox pr pc ⟨h3.1, h3.2⟩
  · intro h
    refine ⟨⟨fun c => ?_, fun r => ?_⟩, fun r c hrc => ?_⟩
    · exact h (row, c) (Or.inl rfl)
    · exact h (r, col) (Or.inr (Or.inl rfl))
    · exact h (r, c) (Or.inr (Or.inr hrc))

/-- Characterization of the play-time legality check: `num` is legal at
`(row, col)` iff no *other* cell sharing a unit with `(row, col)` holds `num`. -/
lemma isValidMove_iff (G : PlayGrid) (row col : Fin 9) (num : Nat) :
    isValidMove G row col num = true ↔
      ∀ p : Pos, p ≠ (row, col) → sameUnit p (row, col) → (G p).value ≠ some num := by
  unfold isValidMove
  simp only [Bool.and_eq_true, all_finRange_iff, ite_true_iff, ite_true_left_iff,
    bne_iff_ne]
  constructor
  · rintro ⟨⟨hrow, hcol⟩, hbox⟩ ⟨pr, pc⟩ hne hsu
    rcases hsu with h1 | h2 | h3
    · cases h1
      have hpc : pc ≠ col := fun h => hne (by rw [h])
      exact hrow pc hpc
    · cases h2
      have hpr : pr ≠ row := fun h => hne (by rw [h])
      exact hcol pr hpr
    · have hne' : ¬(pr = row ∧ pc = col) := by
        rintro ⟨rfl, rfl⟩; exact hne rfl
      exact hbox pr pc ⟨h3.1, h3.2, hne'⟩
  · intro h
    refine ⟨⟨fun c hc => ?_, fun r hr => ?_⟩, fun r c hrc => ?_⟩
    · exact h (row, c) (by simp [Prod.ext_iff, hc]) (Or.inl rfl)
    · exact h (r, col) (by simp [Prod.ext_iff, hr]) (Or.inr (Or.inl rfl))
    · exact h (r, c) (by simp [Prod.ext_iff]; exact fun h1 h2 => hrc.2.2 ⟨h1, h2⟩)
        (Or.inr (Or.inr ⟨hrc.1, hrc.2.1⟩))

lemma sameUnit_symm {p q : Pos} (h : sameUnit p q) : sameUnit q p := by
  rcases h with h | h | h
  · exact Or.inl h.symm
  · exact Or.inr (Or.inl h.symm)
  · exact Or.inr (Or.inr ⟨h.1.symm, h.2.symm⟩)

/-- Placing a legal digit in an empty cell keeps the grid consistent. -/
lemma gridConsistent_setCell {g : SudokuGrid} {p : Pos} {n : Nat}
    (hg : gridConsistent g) (hp : g p = none)
    (hv : isValidPlacement g p.1 p.2 n = true) :
    gridConsistent (setCell g p (some n)) := by
  have hv' := (isValidPlacement_iff g p.1 p.2 n).mp hv
  intro q r hne hsu d hq hr
  by_cases hqp : q = p
  · subst hqp
    rw [setCell_same] at hq
    injection hq with hnd
    subst hnd
    have hrq : r ≠ q := fun h => hne h.symm
    rw [setCell_of_ne _ _ hrq] at hr
    exact hv' r (sameUnit_symm hsu) hr
  · rw [setCell_of_ne _ _ hqp] at hq
    by_cases hrp : r = p
    · subst hrp
      rw [setCell_same] at hr
      injection hr with hnd
      subst hnd
      exact hv' q hsu hq
    · rw [setCell_of_ne _ _ hrp] at hr
      exact hg q r hne hsu d hq hr

lemma blankCells_apply (g : SudokuGrid) (ps : List Pos) (p : Pos) :
    blankCells g ps p = if p ∈ ps then none else g p := by
  induction ps generalizing g with
  | nil => simp [blankCells]
  | cons q qs ih =>
    show blankCells (setCell g q none) qs p = _
    rw [ih]
    by_cases hq : p ∈ qs
    · simp [hq]
    · by_cases hpq : p = q
      · subst hpq; simp [hq, setCell_same]
      · simp [hq, hpq, setCell_of_ne _ _ hpq]

/-- Blanking cells never creates a duplicate. -/
lemma gridConsistent_blankCells {g : SudokuGrid} (hg : gridConsistent g)
    (ps : List Pos) : gridConsistent (blankCells g ps) := by
  intro p q hne hsu d hp hq
  rw [blankCells_apply] at hp hq
  by_cases h1 : p ∈ ps
  · simp [h1] at hp
  · by_cases h2 : q ∈ ps
    · simp [h2] at hq
    · rw [if_neg h1] at hp
      rw [if_neg h2] at hq
      exact hg p q hne hsu d hp hq

lemma findFirstEmpty_eq_none {g : SudokuGrid} (h : findFirstEmpty g = none) :
    ∀ p, g p ≠ none := by
  intro p
  have := List.find?_eq_none.mp h p (mem_allPositions p)
  simpa using this

lemma findFirstEmpty_eq_some {g : SudokuGrid} {p : Pos}
    (h : findFirstEmpty g = some p) : g p = none := by
  have := List.find?_some h
  simpa using this

/-! ## Soundness of the backtracking fill

Every grid the fill step returns is consistent (each placement passes
`isValidPlacement`), and is completely filled (success only happens when the
row-major scan finds no empty cell). -/

lemma tryNumbers_consistent {fuel : Nat}
    (fillIH : ∀ g rng k g' k', gridConsistent g →
      fillGrid fuel g rng k = (some g', k') → gridConsistent g') :
    ∀ (nums : List Nat) (g : SudokuGrid) (p : Pos) (rng : Rng) (k k' : Nat)
      (g' : SudokuGrid), gridConsistent g → g p = none →
      tryNumbers fuel g p nums rng k = (some g', k') → gridConsistent g' := by
  intro nums
  induction nums with
  | nil =>
    intro g p rng k k' g' _ _ h
    rw [tryNumbers] at h
    simp at h
  | cons n rest ih =>
    intro g p rng k k' g' hg hp h
    rw [tryNumbers] at h
    split at h
    case isTrue hv =>
      split at h
      case h_1 g2 k2 heq =>
        injection h with h1 h2
        injection h1 with h1
        subst h1
        exact fillIH _ rng k _ k2 (gridConsistent_setCell hg hp hv) heq
      case h_2 k2 heq =>
        exact ih g p rng k2 k' g' hg hp h
    case isFalse hv =>
      exact ih g p rng k k' g' hg hp h

lemma fillGrid_consistent :
    ∀ (fuel : Nat) (g : SudokuGrid) (rng : Rng) (k k' : Nat) (g' : SudokuGrid),
      gridConsistent g → fillGrid fuel g rng k = (some g', k') →
      gridConsistent g' := by
  intro fuel
  induction fuel with
  | zero =>
    intro g rng k k' g' _ h
    rw [fillGrid] at h
    simp at h
  | succ f ih =>
    intro g rng k k' g' hg h
    rw [fillGrid] at h
    split at h
    case h_1 =>
      injection h with h1 h2
      injection h1 with h1
      subst h1
      exact hg
    case h_2 p hf =>
      exact tryNumbers_consistent
        (fun g rng k g' k' hgc hfill => ih g rng k k' g' hgc hfill)
        _ g p rng _ k' g' hg (findFirstEmpty_eq_some hf) h

lemma tryNumbers_full {fuel : Nat}
    (fillIH : ∀ g rng k g' k', fillGrid fuel g rng k = (some g', k') →
      ∀ q, g' q ≠ none) :
    ∀ (nums : List Nat) (g : SudokuGrid) (p : Pos) (rng : Rng) (k k' : Nat)
      (g' : SudokuGrid),
      tryNumbers fuel g p nums rng k = (some g', k') → ∀ q, g' q ≠ none := by
  intro nums
  induction nums with
  | nil =>
    intro g p rng k k' g' h
    rw [tryNumbers] at h
    simp at h
  | cons n rest ih =>
    intro g p rng k k' g' h
    rw [tryNumbers] at h
    split at h
    case isTrue hv =>
      split at h
      case h_1 g2 k2 heq =>
        injection h with h1 h2
        injection h1 with h1
        subst h1
        exact fillIH _ rng k _ k2 heq
      case h_2 k2 heq =>
        exact ih g p rng k2 k' g' h
    case isFalse hv =>
      exact ih g p rng k k' g' h

lemma fillGrid_full :
    ∀ (fuel : Nat) (g : SudokuGrid) (rng : Rng) (k k' : Nat) (g' : SudokuGrid),
      fillGrid fuel g rng k = (some g', k') → ∀ q, g' q ≠ none := by
  intro fuel
  induction fuel with
  | zero =>
    intro g rng k k' g' h
    rw [fillGrid] at h
    simp at h
  | succ f ih =>
    intro g rng k k' g' h
    rw [fillGrid] at h
    split at h
    case h_1 hf =>
      injection h with h1 h2
      injection h1 with h1
      subst h1
      exact findFirstEmpty_eq_none hf
    case h_2 p hf =>
      exact tryNumbers_full
        (fun g rng k g' k' hfill => ih g rng k k' g' hfill)
        _ g p rng _ k' g' h

/-! ## The shuffle is a permutation -/

lemma cons_perm_set (l : List α) (m : Nat) (a b : α)
    (h : l.get? m = some b) : (a :: l).Perm (b :: l.set m a) := by
  induction l generalizing m a with
  | nil => simp at h
  | cons y ys ih =>
    cases m with
    | zero =>
      have h' : y = b := by simpa using h
      subst h'
      exact List.Perm.swap y a ys
    | succ m' =>
      have hperm := ih m' a h
      have s1 : (a :: y :: ys).Perm (y :: a :: ys) := List.Perm.swap y a ys
      have s2 : (y :: a :: ys).Perm (y :: b :: ys.set m' a) := hperm.cons y
      have s3 : (y :: b :: ys.set m' a).Perm (b :: y :: ys.set m' a) :=
        List.Perm.swap b y _
      exact (s1.trans s2).trans s3

lemma swapAt_perm (l : List α) (i j : Nat) : (swapAt l i j).Perm l := by
  unfold swapAt
  rcases h1 : l.get? i with _ | a <;> rcases h2 : l.get? j with _ | b
  · exact List.Perm.refl l
  · exact List.Perm.refl l
  · exact List.Perm.refl l
  · show ((l.set i b).set j a).Perm l
    by_cases hij : i = j
    · subst hij
      rw [List.set_set]
      rw [h1] at h2
      injection h2 with h2
      subst h2
      exact ((cons_perm_set l i a a h1).cons_inv).symm
    · have h2' : (l.set i b).get? j = some b := by
        rw [List.get?_set_ne _ _ hij]
        exact h2
      have s1 := cons_perm_set l i b a h1
      have s2 := cons_perm_set (l.set i b) j a b h2'
      exact ((s1.trans s2).cons_inv).symm

lemma shuffleStep_perm (rng : Rng) :
    ∀ (i : Nat) (l : List α) (k : Nat), ((shuffleStep rng i l k).1).Perm l := by
  intro i
  induction i with
  | zero => intro l k; exact List.Perm.refl l
  | succ i ih =>
    intro l k
    rw [shuffleStep]
    exact (ih _ _).trans (swapAt_perm l (i + 1) _)

lemma shuffleArray_perm (rng : Rng) (l : List α) (k : Nat) :
    ((shuffleArray rng l k).1).Perm l :=
  shuffleStep_perm rng _ l k

/-! ## Completeness of the backtracking fill

From any consistent partial grid that extends to a total solution, the fill
step succeeds: the digit the solution assigns to the first empty cell is
always among the shuffled candidates and always passes the legality check. -/

lemma mem_oneToNine {n : Nat} : n ∈ oneToNine ↔ 1 ≤ n ∧ n ≤ 9 := by
  simp [oneToNine]
  omega

lemma countEmpty_setCell_some {g : SudokuGrid} {p : Pos} {n : Nat}
    (hp : g p = none) :
    countEmpty (setCell g p (some n)) = countEmpty g - 1 ∧ 1 ≤ countEmpty g := by
  have hmem : p ∈ Finset.univ.filter fun q : Pos => g q = none := by simp [hp]
  have hfilter :
      (Finset.univ.filter fun q : Pos => setCell g p (some n) q = none) =
        (Finset.univ.filter fun q : Pos => g q = none).erase p := by
    ext q
    by_cases hq : q = p
    · subst hq; simp [setCell_same]
    · simp [setCell_of_ne _ _ hq, hq]
  constructor
  · unfold countEmpty
    rw [hfilter, Finset.card_erase_of_mem hmem]
  · exact Finset.card_pos.mpr ⟨p, hmem⟩

lemma agreesWith_setCell {g : SudokuGrid} {sol : Pos → Nat} {p : Pos}
    (hag : agreesWith g sol) : agreesWith (setCell g p (some (sol p))) sol := by
  intro q d hq
  by_cases hqp : q = p
  · subst hqp
    rw [setCell_same] at hq
    injection hq with h
    exact h.symm
  · rw [setCell_of_ne _ _ hqp] at hq
    exact hag q d hq

/-- The digit a total solution assigns to an empty cell always passes the
generation-time legality check. -/
lemma isValidPlacement_sol {g : SudokuGrid} {sol : Pos → Nat} {p : Pos}
    (hsol : totalConsistent sol) (hag : agreesWith g sol) (hp : g p = none) :
    isValidPlacement g p.1 p.2 (sol p) = true := by
  rw [isValidPlacement_iff]
  intro q hsu heq
  have hd := hag q (sol p) heq
  by_cases hqp : q = p
  · subst hqp
    rw [hp] at heq
    exact Option.noConfusion heq
  · exact hsol.2 q p hqp hsu hd.symm

lemma tryNumbers_complete {fuel : Nat} {sol : Pos → Nat}
    (hsol : totalConsistent sol)
    (fillIH : ∀ g rng k, countEmpty g < fuel → agreesWith g sol →
      (fillGrid fuel g rng k).1.isSome = true) :
    ∀ (nums : List Nat) (g : SudokuGrid) (p : Pos) (rng : Rng) (k : Nat),
      agreesWith g sol → g p = none → countEmpty g ≤ fuel → sol p ∈ nums →
      (tryNumbers fuel g p nums rng k).1.isSome = true := by
  intro nums
  induction nums with
  | nil =>
    intro g p rng k _ _ _ hmem
    simp at hmem
  | cons n rest ih =>
    intro g p rng k hag hp hce hmem
    rw [tryNumbers]
    by_cases hv : isValidPlacement g p.1 p.2 n = true
    · rw [if_pos hv]
      rcases hres : fillGrid fuel (setCell g p (some n)) rng k with ⟨og, k2⟩
      cases og with
      | some g2 => simp
      | none =>
        show (tryNumbers fuel g p rest rng k2).1.isSome = true
        by_cases hnp : n = sol p
        · exfalso
          subst hnp
          obtain ⟨he, h1⟩ := countEmpty_setCell_some (n := sol p) hp
          have hlt : countEmpty (setCell g p (some (sol p))) < fuel := by omega
          have hsome := fillIH (setCell g p (some (sol p))) rng k hlt
            (agreesWith_setCell hag)
          rw [hres] at hsome
          simp at hsome
        · have hrest : sol p ∈ rest := by
            rcases List.mem_cons.mp hmem with h | h
            · exact absurd h.symm hnp
            · exact h
          exact ih g p rng k2 hag hp hce hrest
    · rw [if_neg hv]
      have hnp : n ≠ sol p := fun h => hv (h ▸ isValidPlacement_sol hsol hag hp)
      have hrest : sol p ∈ rest := by
        rcases List.mem_cons.mp hmem with h | h
        · exact absurd h.symm hnp
        · exact h
      exact ih g p rng k hag hp hce hrest

lemma fillGrid_complete {sol : Pos → Nat} (hsol : totalConsistent sol) :
    ∀ (fuel : Nat) (g : SudokuGrid) (rng : Rng) (k : Nat),
      countEmpty g < fuel → agreesWith g sol →
      (fillGrid fuel g rng k).1.isSome = true := by
  intro fuel
  induction fuel with
  | zero =>
    intro g rng k h _
    omega
  | succ f ih =>
    intro g rng k hce hag
    rw [fillGrid]
    rcases hf : findFirstEmpty g with _ | p
    · simp
    · have hmem : sol p ∈ (shuffleArray rng oneToNine k).1 :=
        (shuffleArray_perm rng oneToNine k).mem_iff.mpr
          (mem_oneToNine.mpr (hsol.1 p))
      exact tryNumbers_complete hsol ih _ g p rng _ hag
        (findFirstEmpty_eq_some hf) (by omega) hmem

lemma emptyGrid_consistent : gridConsistent (fun _ => none : SudokuGrid) := by
  intro p q _ _ d hp
  exact absurd hp (by simp)

lemma emptyGrid_agrees (sol : Pos → Nat) :
    agreesWith (fun _ => none : SudokuGrid) sol := by
  intro p d h
  exact absurd h (by simp)

lemma countEmpty_empty : countEmpty (fun _ => none : SudokuGrid) = 81 := by
  decide

lemma countEmpty_blankCells_of_full {g : SudokuGrid} (hfull : ∀ p, g p ≠ none)
    {ps : List Pos} (hnd : ps.Nodup) :
    countEmpty (blankCells g ps) = ps.length := by
  have hset :
      (Finset.univ.filter fun p : Pos => blankCells g ps p = none) = ps.toFinset := by
    ext p
    rw [Finset.mem_filter, blankCells_apply]
    by_cases hp : p ∈ ps
    · simp [hp]
    · simp [hp, hfull p]
  rw [countEmpty, hset, List.toFinset_card_of_nodup hnd]

/-! ## Claims about the generator -/

/-- C1: for every random stream, every grid returned by `generateRandomSudoku`
satisfies all Sudoku constraints: no digit occurs twice among the non-empty
entries of any row, column, or 3×3 box (two distinct positions sharing a row,
a column, or a box never hold the same digit). -/
theorem c1_generated_grid_consistent (rng : Rng) (k : Nat) :
    gridConsistent (generateRandomSudoku rng k) := by
  rcases hfr : (fillGrid 82 (fun _ => none) rng k).1 with _ | g1
  · have hgen : generateRandomSudoku rng k =
        blankCells (fun _ => none)
          (((shuffleArray rng allPositions
              ((fillGrid 82 (fun _ => none) rng k).2 + 1)).1).take
            (45 + rng (fillGrid 82 (fun _ => none) rng k).2 % 6)) := by
      simp only [generateRandomSudoku, removeCells, hfr]
    rw [hgen]
    exact gridConsistent_blankCells emptyGrid_consistent _
  · have hgen : generateRandomSudoku rng k =
        blankCells g1
          (((shuffleArray rng allPositions
              ((fillGrid 82 (fun _ => none) rng k).2 + 1)).1).take
            (45 + rng (fillGrid 82 (fun _ => none) rng k).2 % 6)) := by
      simp only [generateRandomSudoku, removeCells, hfr]
    have hfill_eq : fillGrid 82 (fun _ => none) rng k =
        (some g1, (fillGrid 82 (fun _ => none) rng k).2) := by
      rw [← hfr]
    have hg1 : gridConsistent g1 :=
      fillGrid_consistent 82 _ rng k _ g1 emptyGrid_consistent hfill_eq
    rw [hgen]
    exact gridConsistent_blankCells hg1 _

/-- C9: for every random stream, the grid returned by `generateRandomSudoku`
has between 45 and 50 empty cells — equivalently, between 31 and 36 filled
cells. -/
theorem c9_generated_grid_removal_bound (rng : Rng) (k : Nat) :
    45 ≤ countEmpty (generateRandomSudoku rng k) ∧
      countEmpty (generateRandomSudoku rng k) ≤ 50 ∧
      31 ≤ 81 - countEmpty (generateRandomSudoku rng k) ∧
      81 - countEmpty (generateRandomSudoku rng k) ≤ 36 := by
  have hsome := fillGrid_complete solGrid_totalConsistent 82 (fun _ => none) rng k
    (by rw [countEmpty_empty]; omega) (emptyGrid_agrees solGrid)
  rcases hfr : (fillGrid 82 (fun _ => none) rng k).1 with _ | g1
  · rw [hfr] at hsome
    simp at hsome
  · have hgen : generateRandomSudoku rng k =
        blankCells g1
          (((shuffleArray rng allPositions
              ((fillGrid 82 (fun _ => none) rng k).2 + 1)).1).take
            (45 + rng (fillGrid 82 (fun _ => none) rng k).2 % 6)) := by
      simp only [generateRandomSudoku, removeCells, hfr]
    have hfill_eq : fillGrid 82 (fun _ => none) rng k =
        (some g1, (fillGrid 82 (fun _ => none) rng k).2) := by
      rw [← hfr]
    have hfull : ∀ q, g1 q ≠ none :=
      fillGrid_full 82 _ rng k _ g1 hfill_eq
    have hperm := shuffleArray_perm rng allPositions
      ((fillGrid 82 (fun _ => none) rng k).2 + 1)
    have hlen : ((shuffleArray rng allPositions
        ((fillGrid 82 (fun _ => none) rng k).2 + 1)).1).length = 81 :=
      hperm.length_eq.trans allPositions_length
    have hnodup : (((shuffleArray rng allPositions
        ((fillGrid 82 (fun _ => none) rng k).2 + 1)).1).take
          (45 + rng (fillGrid 82 (fun _ => none) rng k).2 % 6)).Nodup :=
      (List.take_sublist _ _).nodup (hperm.nodup_iff.mpr allPositions_nodup)
    have hmod : rng (fillGrid 82 (fun _ => none) rng k).2 % 6 < 6 :=
      Nat.mod_lt _ (by omega)
    have htake : (((shuffleArray rng allPositions
        ((fillGrid 82 (fun _ => none) rng k).2 + 1)).1).take
          (45 + rng (fillGrid 82 (fun _ => none) rng k).2 % 6)).length =
        45 + rng (fillGrid 82 (fun _ => none) rng k).2 % 6 := by
      rw [List.length_take, hlen]
      omega
    have hce : countEmpty (generateRandomSudoku rng k) =
        45 + rng (fillGrid 82 (fun _ => none) rng k).2 % 6 := by
      rw [hgen, countEmpty_blankCells_of_full hfull hnodup, htake]
    rw [hce]
    omega

/-! ## Claims about the validator -/

lemma updateValidation_value (G : PlayGrid) (p : Pos) :
    (updateValidation G p).value = (G p).value := rfl

lemma updateValidation_isFixed (G : PlayGrid) (p : Pos) :
    (updateValidation G p).isFixed = (G p).isFixed := rfl

lemma updateValidation_isValid_none {G : PlayGrid} {p : Pos}
    (h : (G p).value = none) : (updateValidation G p).isValid = true := by
  show (match (G p).value with
        | none => true
        | some d => isValidMove G p.1 p.2 d) = true
  rw [h]

lemma updateValidation_isValid_some {G : PlayGrid} {p : Pos} {d : Nat}
    (h : (G p).value = some d) :
    (updateValidation G p).isValid = isValidMove G p.1 p.2 d := by
  show (match (G p).value with
        | none => true
        | some d => isValidMove G p.1 p.2 d) = isValidMove G p.1 p.2 d
  rw [h]

/-- A play grid whose only conflict is a duplicate pair of 7s in row 0, at
columns 0 and 5. -/
def pairGrid : PlayGrid :=
  fun p =>
    { value :=
        if p = ((0 : Fin 9), (0 : Fin 9)) ∨ p = ((0 : Fin 9), (5 : Fin 9)) then some 7
        else none,
      isFixed := false,
      isValid := true }

/-- `pairGrid` with one member of the pair (cell (0,5)) cleared. -/
def pairGridCleared : PlayGrid :=
  fun p =>
    { value := if p = ((0 : Fin 9), (0 : Fin 9)) then some 7 else none,
      isFixed := false,
      isValid := true }

/-- C2: `updateValidation` marks a cell valid exactly when its value is empty
or no *other* cell in the same row, column, or 3×3 box holds the same value.
In particular, on the grid whose only conflict is the duplicate pair of 7s at
(0,0) and (0,5), exactly those two cells are marked invalid and every other
cell valid; after clearing one member of the pair, every cell is marked
valid. -/
theorem c2_revalidation_correct :
    (∀ (G : PlayGrid) (p : Pos),
      (updateValidation G p).isValid = true ↔
        ((G p).value = none ∨
          ∀ q : Pos, q ≠ p → sameUnit q p → (G q).value ≠ (G p).value)) ∧
    (∀ p : Pos,
      (updateValidation pairGrid p).isValid = true ↔
        ¬(p = ((0 : Fin 9), (0 : Fin 9)) ∨ p = ((0 : Fin 9), (5 : Fin 9)))) ∧
    (∀ p : Pos, (updateValidation pairGridCleared p).isValid = true) := by
  refine ⟨?_, by decide, by decide⟩
  intro G p
  rcases h : (G p).value with _ | d
  · rw [updateValidation_isValid_none h]
    simp [h]
  · rw [updateValidation_isValid_some h]
    rw [isValidMove_iff]
    constructor
    · intro hall
      exact Or.inr fun q hq hsu heq => hall q hq hsu heq
    · rintro (hc | hall)
      · exact Option.noConfusion hc
      · intro q hq hsu heq
        exact hall q hq hsu heq

/-- C10: on an empty cell, the generation-time legality check
(`isValidPlacement`, acting on the raw grid) and the play-time legality check
(`isValidMove`, acting on the annotated grid carrying the same values) return
the same boolean, and both are true iff no other cell of the same row, column,
or 3×3 box holds the digit — they are the one `isLegal` operation of the
spec. -/
theorem c10_validators_agree (g : SudokuGrid) (G : PlayGrid)
    (hvals : ∀ p, (G p).value = g p) (row col : Fin 9) (num : Nat)
    (hempty : g (row, col) = none) :
    isValidPlacement g row col num = isValidMove G row col num ∧
      (isValidPlacement g row col num = true ↔
        ∀ p : Pos, p ≠ (row, col) → sameUnit p (row, col) → g p ≠ some num) := by
  have hiff : isValidPlacement g row col num = true ↔
      ∀ p : Pos, p ≠ (row, col) → sameUnit p (row, col) → g p ≠ some num := by
    rw [isValidPlacement_iff]
    constructor
    · intro h p hne hsu
      exact h p hsu
    · intro h p hsu heq
      by_cases hp : p = (row, col)
      · subst hp
        rw [hempty] at heq
        exact Option.noConfusion heq
      · exact h p hp hsu heq
  have h2 : isValidMove G row col num = true ↔
      ∀ p : Pos, p ≠ (row, col) → sameUnit p (row, col) → g p ≠ some num := by
    rw [isValidMove_iff]
    constructor
    · intro h p hne hsu
      rw [← hvals p]
      exact h p hne hsu
    · intro h p hne hsu
      rw [hvals p]
      exact h p hne hsu
  have hpm := hiff.trans h2.symm
  constructor
  · cases ha : isValidPlacement g row col num <;>
      cases hb : isValidMove G row col num <;> simp_all
  · exact hiff

/-- The empty raw grid and the empty annotated grid used to witness C10. -/
def rawEmpty : SudokuGrid := fun _ => none

/-- See `rawEmpty`. -/
def playEmpty : PlayGrid :=
  fun _ => { value := none, isFixed := false, isValid := true }

/-- Witness for C10 at a concrete input: both validators agree on digit 5 at
the empty cell (0,0) of the empty grid. -/
theorem c10_validators_agree_witness :
    isValidPlacement rawEmpty 0 0 5 = isValidMove playEmpty 0 0 5 :=
  (c10_validators_agree rawEmpty playEmpty (fun _ => rfl) 0 0 5 rfl).1

/-! ## Claims about the state machine -/

lemma handleNumberInput_grid (s : GameSession) (num : Nat) (pos : Pos)
    (hsel : s.selectedCell = some pos) (hfix : (s.grid pos).isFixed = false) :
    (handleNumberInput s num).1.grid =
      updateValidation (inputGrid s pos
        (if (s.grid pos).value = some num then none else some num)) := by
  simp [handleNumberInput, hsel, hfix]

/-- C3: with a non-fixed cell selected, entering the cell's current digit
clears the cell with no life change and no error outcome; entering a digit
that ends up in conflict (the cell is invalid after revalidation) costs
exactly one life, floored at 0, with outcome `Invalid`; entering a digit that
ends up valid keeps the lives unchanged with outcome `Placed`. -/
theorem c3_input_life_accounting (s : GameSession) (num : Nat) (pos : Pos)
    (hsel : s.selectedCell = some pos) (hfix : (s.grid pos).isFixed = false) :
    ((s.grid pos).value = some num →
      ((handleNumberInput s num).1.grid pos).value = none ∧
      (handleNumberInput s num).1.lives = s.lives ∧
      (handleNumberInput s num).2 = Outcome.None) ∧
    ((s.grid pos).value ≠ some num →
      ((handleNumberInput s num).1.grid pos).value = some num ∧
      (((handleNumberInput s num).1.grid pos).isValid = false →
        (handleNumberInput s num).1.lives = max 0 (s.lives - 1) ∧
        (handleNumberInput s num).2 = Outcome.Invalid) ∧
      (((handleNumberInput s num).1.grid pos).isValid = true →
        (handleNumberInput s num).1.lives = s.lives ∧
        (handleNumberInput s num).2 = Outcome.Placed)) := by
  have hgrid := handleNumberInput_grid s num pos hsel hfix
  constructor
  · intro hv
    refine ⟨?_, ?_, ?_⟩
    · rw [hgrid, updateValidation_value]
      simp [inputGrid, hv]
    · simp [handleNumberInput, hsel, hfix, hv]
    · simp [handleNumberInput, hsel, hfix, hv]
  · intro hv
    have hval : ((handleNumberInput s num).1.grid pos).value = some num := by
      rw [hgrid, updateValidation_value]
      simp [inputGrid, hv]
    refine ⟨hval, ?_, ?_⟩
    · intro hinv
      rw [hgrid, if_neg hv] at hinv
      constructor <;> simp [handleNumberInput, hsel, hfix, hv, hinv]
    · intro hvalid
      rw [hgrid, if_neg hv] at hvalid
      constructor <;> simp [handleNumberInput, hsel, hfix, hv, hvalid]

/-- The session used to witness the input claims: fresh session over the empty
puzzle with the (free) cell (0,0) selected. -/
def witnessSession : GameSession :=
  handleCellClick (createSession rawEmpty) 0 0

/-- Witness for C3 at a concrete input: entering 5 at the empty selected cell
(0,0) of `witnessSession` places it validly, keeps 3 lives, outcome `Placed`. -/
theorem c3_input_life_accounting_witness :
    ((handleNumberInput witnessSession 5).1.grid ((0 : Fin 9), (0 : Fin 9))).value =
        some 5 ∧
      (handleNumberInput witnessSession 5).1.lives = witnessSession.lives ∧
      (handleNumberInput witnessSession 5).2 = Outcome.Placed := by
  have h := (c3_input_life_accounting witnessSession 5 ((0 : Fin 9), (0 : Fin 9))
    (by decide) (by decide)).2 (by decide)
  exact ⟨h.1, (h.2.2 (by decide)).1, (h.2.2 (by decide)).2⟩

/-- C4: after a (non-no-op) digit entry, `isComplete` holds iff the resulting
grid is completely filled and fully valid, or it already held before (the
source only ever *sets* the flag in `handleNumberInput`); digit entry and
selection never clear the flag, while clear (non-no-op), undo (non-no-op) and
reset do clear it. -/
theorem c4_completion_detection :
    (∀ (s : GameSession) (num : Nat) (pos : Pos),
      s.selectedCell = some pos → (s.grid pos).isFixed = false →
        (handleNumberInput s num).1.isComplete =
          (gridFull (handleNumberInput s num).1.grid &&
              gridAllValid (handleNumberInput s num).1.grid ||
            s.isComplete)) ∧
    (∀ (s : GameSession) (num : Nat),
      s.isComplete = true → (handleNumberInput s num).1.isComplete = true) ∧
    (∀ (s : GameSession) (row col : Fin 9),
      (handleCellClick s row col).isComplete = s.isComplete) ∧
    (∀ (s : GameSession) (pos : Pos),
      s.selectedCell = some pos → (s.grid pos).isFixed = false →
        (handleClear s).isComplete = false) ∧
    (∀ s : GameSession, 1 < s.moveHistory.length →
      (handleUndo s).isComplete = false) ∧
    (∀ s : GameSession, (handleReset s).isComplete = false) := by
  refine ⟨?_, ?_, ?_, ?_, ?_, fun s => rfl⟩
  · intro s num pos hsel hfix
    simp only [handleNumberInput, hsel, hfix, Bool.false_eq_true, if_false]
    split
    · simp_all
    · simp_all
  · intro s num hcomp
    rcases hsel : s.selectedCell with _ | pos
    · simp [handleNumberInput, hsel, hcomp]
    · cases hfix : (s.grid pos).isFixed
      · simp [handleNumberInput, hsel, hfix, hcomp]
      · simp [handleNumberInput, hsel, hfix, hcomp]
  · intro s row col
    unfold handleCellClick
    split <;> rfl
  · intro s pos hsel hfix
    simp [handleClear, hsel, hfix]
  · intro s hlen
    simp only [handleUndo]
    rw [if_neg (by omega)]
    rcases hlast : s.moveHistory.dropLast.getLast? with _ | prev
    · exfalso
      have h1 : s.moveHistory.dropLast ≠ [] := by
        apply List.ne_nil_of_length_pos
        rw [List.length_dropLast]
        omega
      exact h1 (List.getLast?_eq_none_iff.mp hlast)
    · rfl

/-- Witness for C4 at a concrete input: entering 5 at the selected cell of
`witnessSession` (a grid still missing cells) leaves `isComplete` false, and
clearing, undoing and resetting from the resulting state keep/clear it to
false. -/
theorem c4_completion_detection_witness :
    (handleNumberInput witnessSession 5).1.isComplete = false ∧
      (handleClear witnessSession).isComplete = false ∧
      (handleUndo (handleNumberInput witnessSession 5).1).isComplete = false ∧
      (handleReset witnessSession).isComplete = false := by
  refine ⟨?_, ?_, ?_, ?_⟩
  · have h := c4_completion_detection.1 witnessSession 5 ((0 : Fin 9), (0 : Fin 9))
      (by decide) (by decide)
    rw [h]
    decide
  · exact c4_completion_detection.2.2.2.1 witnessSession ((0 : Fin 9), (0 : Fin 9))
      (by decide) (by decide)
  · apply c4_completion_detection.2.2.2.2.1
    decide
  · exact c4_completion_detection.2.2.2.2.2 witnessSession

/-- C6: undo at the history floor (exactly one entry) is a no-op; with more
than one entry it pops the last snapshot, restores grid and selection from the
new top of the history, and clears `isComplete`. -/
theorem c6_undo (s : GameSession) :
    (s.moveHistory.length = 1 → handleUndo s = s) ∧
    (1 < s.moveHistory.length →
      (handleUndo s).moveHistory = s.moveHistory.dropLast ∧
      some ((handleUndo s).grid, (handleUndo s).selectedCell) =
        s.moveHistory.dropLast.getLast? ∧
      (handleUndo s).isComplete = false ∧
      (handleUndo s).lives = s.lives) := by
  constructor
  · intro hlen
    simp only [handleUndo]
    rw [if_pos (by omega)]
  · intro hlen
    simp only [handleUndo]
    rw [if_neg (by omega)]
    rcases hlast : s.moveHistory.dropLast.getLast? with _ | prev
    · exfalso
      have h1 : s.moveHistory.dropLast ≠ [] := by
        apply List.ne_nil_of_length_pos
        rw [List.length_dropLast]
        omega
      exact h1 (List.getLast?_eq_none_iff.mp hlast)
    · exact ⟨rfl, rfl, rfl, rfl⟩

/-- Witness for C6 at concrete inputs: undo on a fresh one-entry session is a
no-op, and undo after one placement restores the initial snapshot. -/
theorem c6_undo_witness :
    handleUndo (createSession rawEmpty) = createSession rawEmpty ∧
      (handleUndo (handleNumberInput witnessSession 5).1).moveHistory =
        (handleNumberInput witnessSession 5).1.moveHistory.dropLast := by
  constructor
  · exact (c6_undo (createSession rawEmpty)).1 (by decide)
  · exact ((c6_undo (handleNumberInput witnessSession 5).1).2 (by decide)).1

/-- A session that already lost all lives: empty non-fixed grid, the empty
cell (0,0) selected. -/
def zeroLivesSession : GameSession :=
  { grid := playEmpty,
    selectedCell := some ((0 : Fin 9), (0 : Fin 9)),
    moveHistory := [(playEmpty, some ((0 : Fin 9), (0 : Fin 9)))],
    lives := 0,
    isComplete := false,
    currentPuzzle := rawEmpty }

/-- Counterexample to C8 as stated: `handleNumberInput` checks neither `lives`
nor `isComplete`, so on a session with `lives = 0` a digit entry still changes
the selected cell's value. -/
theorem c8_counterexample :
    zeroLivesSession.lives = 0 ∧
      (zeroLivesSession.grid ((0 : Fin 9), (0 : Fin 9))).value = none ∧
      ((handleNumberInput zeroLivesSession 5).1.grid
          ((0 : Fin 9), (0 : Fin 9))).value = some 5 := by
  refine ⟨rfl, rfl, ?_⟩
  decide

/-- C8 as amended: the engine-level `handleNumberInput` does not block on
`isComplete = true` or `lives = 0` — its grid result and outcome are entirely
independent of the `lives` and `isComplete` fields (only the presentation
layer disables the on-screen number buttons at `lives = 0`, and keyboard input
bypasses that). -/
theorem c8_amended_no_engine_blocking (s : GameSession) (num : Nat) (l : Int)
    (b : Bool) :
    (handleNumberInput { s with lives := l, isComplete := b } num).1.grid =
        (handleNumberInput s num).1.grid ∧
      (handleNumberInput { s with lives := l, isComplete := b } num).2 =
        (handleNumberInput s num).2 := by
  rcases hsel : s.selectedCell with _ | pos
  · constructor <;> simp [handleNumberInput, hsel]
  · have hig : ∀ v, inputGrid { s with lives := l, isComplete := b } pos v =
        inputGrid s pos v := fun _ => rfl
    simp only [hsel] at hig
    cases hfix : (s.grid pos).isFixed
    · constructor <;>
        simp [handleNumberInput, hsel, hfix, hig, apply_ite Prod.snd]
    · constructor <;> simp [handleNumberInput, hsel, hfix]

/-! ## Invariants over operation sequences -/

/-- A play grid is faithful to the seed puzzle: its fixed flags mark exactly
the originally generated cells, and every fixed cell still holds its seed
value. -/
def fixedFaithful (puzzle : SudokuGrid) (G : PlayGrid) : Prop :=
  ∀ p, (G p).isFixed = (puzzle p).isSome ∧
    ((G p).isFixed = true → (G p).value = puzzle p)

/-- `fixedFaithful` holds for the current grid and every history snapshot. -/
def sessionFixedInv (puzzle : SudokuGrid) (s : GameSession) : Prop :=
  fixedFaithful puzzle s.grid ∧ ∀ e ∈ s.moveHistory, fixedFaithful puzzle e.1

lemma fixedFaithful_updateValidation {puzzle : SudokuGrid} {G : PlayGrid}
    (h : fixedFaithful puzzle G) : fixedFaithful puzzle (updateValidation G) := by
  intro p
  rw [updateValidation_isFixed, updateValidation_value]
  exact h p

lemma fixedFaithful_inputGrid {puzzle : SudokuGrid} {s : GameSession} {pos : Pos}
    (h : fixedFaithful puzzle s.grid) (hfix : (s.grid pos).isFixed = false)
    (v : Option Nat) : fixedFaithful puzzle (inputGrid s pos v) := by
  intro p
  unfold inputGrid
  by_cases hp : p = pos
  · subst hp
    rw [if_pos rfl]
    constructor
    · exact (h p).1
    · intro hf
      have hf' : (s.grid p).isFixed = true := hf
      rw [hfix] at hf'
      exact Bool.noConfusion hf'
  · rw [if_neg hp]
    exact h p

lemma handleNumberInput_moveHistory (s : GameSession) (num : Nat) (pos : Pos)
    (hsel : s.selectedCell = some pos) (hfix : (s.grid pos).isFixed = false) :
    (handleNumberInput s num).1.moveHistory =
      s.moveHistory ++
        [(updateValidation (inputGrid s pos
            (if (s.grid pos).value = some num then none else some num)),
          s.selectedCell)] := by
  simp [handleNumberInput, hsel, hfix]

lemma sessionFixedInv_applyOp {puzzle : SudokuGrid} {s : GameSession}
    (h : sessionFixedInv puzzle s) (op : GameOp) :
    sessionFixedInv puzzle (applyOp s op) := by
  obtain ⟨hg, hh⟩ := h
  cases op with
  | select r c =>
    show sessionFixedInv puzzle (handleCellClick s r c)
    unfold handleCellClick
    split
    · exact ⟨hg, hh⟩
    · exact ⟨hg, hh⟩
  | input n =>
    show sessionFixedInv puzzle (handleNumberInput s n).1
    rcases hsel : s.selectedCell with _ | pos
    · have hs : (handleNumberInput s n).1 = s := by simp [handleNumberInput, hsel]
      rw [hs]
      exact ⟨hg, hh⟩
    · cases hfix : (s.grid pos).isFixed
      case false =>
        have hvg := fixedFaithful_updateValidation
          (fixedFaithful_inputGrid hg hfix
            (if (s.grid pos).value = some n then none else some n))
        constructor
        · rw [handleNumberInput_grid s n pos hsel hfix]
          exact hvg
        · intro e he
          rw [handleNumberInput_moveHistory s n pos hsel hfix] at he
          rcases List.mem_append.mp he with h1 | h2
          · exact hh e h1
          · have h3 := List.mem_singleton.mp h2
            subst h3
            exact hvg
      case true =>
        have hs : (handleNumberInput s n).1 = s := by
          simp [handleNumberInput, hsel, hfix]
        rw [hs]
        exact ⟨hg, hh⟩
  | clear =>
    show sessionFixedInv puzzle (handleClear s)
    rcases hsel : s.selectedCell with _ | pos
    · have hs : handleClear s = s := by simp [handleClear, hsel]
      rw [hs]
      exact ⟨hg, hh⟩
    · cases hfix : (s.grid pos).isFixed
      case false =>
        have hvg := fixedFaithful_updateValidation
          (fixedFaithful_inputGrid hg hfix none)
        have hgr : (handleClear s).grid = updateValidation (inputGrid s pos none) := by
          simp [handleClear, hsel, hfix]
        have hmh : (handleClear s).moveHistory =
            s.moveHistory ++ [(updateValidation (inputGrid s pos none),
              s.selectedCell)] := by
          simp [handleClear, hsel, hfix]
        constructor
        · rw [hgr]
          exact hvg
        · intro e he
          rw [hmh] at he
          rcases List.mem_append.mp he with h1 | h2
          · exact hh e h1
          · have h3 := List.mem_singleton.mp h2
            subst h3
            exact hvg
      case true =>
        have hs : handleClear s = s := by simp [handleClear, hsel, hfix]
        rw [hs]
        exact ⟨hg, hh⟩
  | undo =>
    show sessionFixedInv puzzle (handleUndo s)
    simp only [handleUndo]
    split
    · exact ⟨hg, hh⟩
    · rcases hlast : s.moveHistory.dropLast.getLast? with _ | prev
      · exact ⟨hg, hh⟩
      · have hprevmem : prev ∈ s.moveHistory :=
          (List.dropLast_sublist s.moveHistory).subset
            (List.mem_of_getLast?_eq_some hlast)
        constructor
        · exact hh prev hprevmem
        · intro e he
          exact hh e ((List.dropLast_sublist s.moveHistory).subset he)

lemma sessionFixedInv_createSession (puzzle : SudokuGrid) :
    sessionFixedInv puzzle (createSession puzzle) := by
  have hinit : fixedFaithful puzzle (initialGridOf puzzle) := by
    intro p
    exact ⟨rfl, fun _ => rfl⟩
  constructor
  · exact hinit
  · intro e he
    have h3 : e = (initialGridOf puzzle, none) := by
      simpa [createSession] using he
    subst h3
    exact hinit

/-- C5: over any sequence of select / input / clear / undo operations, every
cell created fixed keeps its `isFixed` flag and its original value. -/
theorem c5_fixed_cells_immutable (puzzle : SudokuGrid) (ops : List GameOp)
    (p : Pos) :
    ((applyOps (createSession puzzle) ops).grid p).isFixed =
        ((createSession puzzle).grid p).isFixed ∧
      (((createSession puzzle).grid p).isFixed = true →
        ((applyOps (createSession puzzle) ops).grid p).value =
          ((createSession puzzle).grid p).value) := by
  have hstep : ∀ (l : List GameOp) (s : GameSession), sessionFixedInv puzzle s →
      sessionFixedInv puzzle (applyOps s l) := by
    intro l
    induction l with
    | nil => intro s h; exact h
    | cons op rest ih =>
      intro s h
      exact ih _ (sessionFixedInv_applyOp h op)
  obtain ⟨hg, _⟩ := hstep ops _ (sessionFixedInv_createSession puzzle)
  have hfix0 : ((createSession puzzle).grid p).isFixed = (puzzle p).isSome := rfl
  have hval0 : ((createSession puzzle).grid p).value = puzzle p := rfl
  constructor
  · rw [(hg p).1, hfix0]
  · intro hf
    rw [hval0]
    refine (hg p).2 ?_
    rw [(hg p).1, ← hfix0]
    exact hf

/-- A puzzle with a single generated (fixed) cell, used as a witness. -/
def onePuzzle : SudokuGrid :=
  fun p => if p = ((0 : Fin 9), (0 : Fin 9)) then some 7 else none

/-- Witness for C5 at a concrete input: after selecting the free cell (0,1),
entering a 3 and undoing, the fixed cell (0,0) still holds its seed value 7. -/
theorem c5_fixed_cells_immutable_witness :
    ((applyOps (createSession onePuzzle)
        [GameOp.select 0 1, GameOp.input 3, GameOp.undo]).grid
        ((0 : Fin 9), (0 : Fin 9))).value = some 7 := by
  have h := (c5_fixed_cells_immutable onePuzzle
    [GameOp.select 0 1, GameOp.input 3, GameOp.undo]
    ((0 : Fin 9), (0 : Fin 9))).2 (by decide)
  rw [h]
  decide

/-- The (amended) history invariant: the history is never empty and its top
snapshot carries the current grid. -/
def historyTopInv (s : GameSession) : Prop :=
  s.moveHistory ≠ [] ∧ s.moveHistory.getLast?.map Prod.fst = some s.grid

lemma historyTopInv_applyOp {s : GameSession} (h : historyTopInv s)
    (op : GameOp) : historyTopInv (applyOp s op) := by
  obtain ⟨hne, htop⟩ := h
  cases op with
  | select r c =>
    show historyTopInv (handleCellClick s r c)
    unfold handleCellClick
    split
    · exact ⟨hne, htop⟩
    · exact ⟨hne, htop⟩
  | input n =>
    show historyTopInv (handleNumberInput s n).1
    rcases hsel : s.selectedCell with _ | pos
    · have hs : (handleNumberInput s n).1 = s := by simp [handleNumberInput, hsel]
      rw [hs]
      exact ⟨hne, htop⟩
    · cases hfix : (s.grid pos).isFixed
      case false =>
        constructor
        · rw [handleNumberInput_moveHistory s n pos hsel hfix]
          simp
        · rw [handleNumberInput_moveHistory s n pos hsel hfix,
            handleNumberInput_grid s n pos hsel hfix, List.getLast?_concat]
          rfl
      case true =>
        have hs : (handleNumberInput s n).1 = s := by
          simp [handleNumberInput, hsel, hfix]
        rw [hs]
        exact ⟨hne, htop⟩
  | clear =>
    show historyTopInv (handleClear s)
    rcases hsel : s.selectedCell with _ | pos
    · have hs : handleClear s = s := by simp [handleClear, hsel]
      rw [hs]
      exact ⟨hne, htop⟩
    · cases hfix : (s.grid pos).isFixed
      case false =>
        have hgr : (handleClear s).grid =
            updateValidation (inputGrid s pos none) := by
          simp [handleClear, hsel, hfix]
        have hmh : (handleClear s).moveHistory =
            s.moveHistory ++ [(updateValidation (inputGrid s pos none),
              s.selectedCell)] := by
          simp [handleClear, hsel, hfix]
        constructor
        · rw [hmh]
          simp
        · rw [hmh, hgr, List.getLast?_concat]
          rfl
      case true =>
        have hs : handleClear s = s := by simp [handleClear, hsel, hfix]
        rw [hs]
        exact ⟨hne, htop⟩
  | undo =>
    show historyTopInv (handleUndo s)
    simp only [handleUndo]
    split
    · exact ⟨hne, htop⟩
    · rcases hlast : s.moveHistory.dropLast.getLast? with _ | prev
      · exact ⟨hne, htop⟩
      · constructor
        · intro hnil
          have hnil' : s.moveHistory.dropLast = [] := hnil
          rw [hnil'] at hlast
          exact Option.noConfusion hlast
        · show (s.moveHistory.dropLast.getLast?).map Prod.fst = some prev.1
          rw [hlast]
          rfl

lemma historyTopInv_createSession (puzzle : SudokuGrid) :
    historyTopInv (createSession puzzle) := by
  constructor
  · simp [createSession]
  · rfl

/-- Counterexample to C7 as stated: `handleCellClick` changes the selection
without pushing a history snapshot, so right after selecting the free cell
(0,0) of a fresh session the top history entry (whose selection component is
`none`) differs from the current `(PlayGrid, Selection)` pair. -/
theorem c7_counterexample :
    ¬((handleCellClick (createSession rawEmpty) 0 0).moveHistory.getLast? =
      some ((handleCellClick (createSession rawEmpty) 0 0).grid,
        (handleCellClick (createSession rawEmpty) 0 0).selectedCell)) := by
  decide

/-- C7 as amended: in every state reachable from session creation by select,
input, clear, and undo operations, the history is non-empty and the *grid*
component of its last entry equals the current grid (the selection component
can lag behind, because `select` does not push a snapshot). -/
theorem c7_amended_history_top_grid (puzzle : SudokuGrid) (ops : List GameOp) :
    (applyOps (createSession puzzle) ops).moveHistory ≠ [] ∧
      ((applyOps (createSession puzzle) ops).moveHistory.getLast?.map Prod.fst =
        some (applyOps (createSession puzzle) ops).grid) := by
  have hstep : ∀ (l : List GameOp) (s : GameSession), historyTopInv s →
      historyTopInv (applyOps s l) := by
    intro l
    induction l with
    | nil => intro s h; exact h
    | cons op rest ih =>
      intro s h
      exact ih _ (historyTopInv_applyOp h op)
  exact hstep ops _ (historyTopInv_createSession puzzle)

end Sudoku
